import Mathlib

/-
  Verification of the SafeVar secure-variable container (SafeVar.hpp).

  The development shallowly embeds the C++ source: byte buffers become
  `List Nat` (each entry a byte value), 32-bit machine arithmetic is `Nat`
  arithmetic reduced modulo 2^32, and the stateful `SafeVar<T>` object
  becomes explicit state passing over the structure `SVState`.  Randomness
  (key/nonce generation) and the OS allocator are modelled by explicit
  oracle parameters: entropy byte lists, a fake-address token, and a flag
  saying whether the OS grants the real-memory allocation.
-/

set_option maxRecDepth 100000

namespace SafeVarModel

/-- 2^32, the modulus of the 32-bit machine words used by the cipher. -/
def two32 : Nat := 4294967296

/-- `LoadLE32` from SafeVar.hpp: load a 32-bit little-endian integer from
bytes `src[o..o+3]`.  Out-of-range reads are modelled as 0 (the in-bounds
obligations are treated separately, see the offset lists below). -/
def LoadLE32 (src : List Nat) (o : Nat) : Nat :=
  src.getD o 0 |||
  (src.getD (o + 1) 0 <<< 8) |||
  (src.getD (o + 2) 0 <<< 16) |||
  (src.getD (o + 3) 0 <<< 24)

/-- `ChaCha20::RotateLeft`: 32-bit rotate left of `x` (assumed `< 2^32`) by `n`. -/
def RotateLeft (x n : Nat) : Nat :=
  ((x <<< n) % two32) ||| (x >>> (32 - n))

/-- `ChaCha20::QuarterRound` on a 16-word state held as a list:
the four add-rotate-xor lines of the source, additions reduced mod 2^32. -/
def QuarterRound (s0 : List Nat) (a b c d : Nat) : List Nat :=
  let s1 := s0.set a ((s0.getD a 0 + s0.getD b 0) % two32)
  let s2 := s1.set d (RotateLeft (Nat.xor (s1.getD d 0) (s1.getD a 0)) 16)
  let s3 := s2.set c ((s2.getD c 0 + s2.getD d 0) % two32)
  let s4 := s3.set b (RotateLeft (Nat.xor (s3.getD b 0) (s3.getD c 0)) 12)
  let s5 := s4.set a ((s4.getD a 0 + s4.getD b 0) % two32)
  let s6 := s5.set d (RotateLeft (Nat.xor (s5.getD d 0) (s5.getD a 0)) 8)
  let s7 := s6.set c ((s6.getD c 0 + s6.getD d 0) % two32)
  s7.set b (RotateLeft (Nat.xor (s7.getD b 0) (s7.getD c 0)) 7)

/-- One iteration of the `for (i = 0; i < 20; i += 2)` loop body in
`ChaCha20::Block`: four column quarter-rounds then four diagonal ones. -/
def DoubleRound (s : List Nat) : List Nat :=
  let s := QuarterRound s 0 4 8 12
  let s := QuarterRound s 1 5 9 13
  let s := QuarterRound s 2 6 10 14
  let s := QuarterRound s 3 7 11 15
  let s := QuarterRound s 0 5 10 15
  let s := QuarterRound s 1 6 11 12
  let s := QuarterRound s 2 7 8 13
  QuarterRound s 3 4 9 14

/-- `ChaCha20::Block` at the word level: run the 20 rounds (10 double
rounds), then add the original state back in, word-wise mod 2^32. -/
def BlockWords (state : List Nat) : List Nat :=
  let w := DoubleRound^[10] state
  (List.range 16).map (fun i => (w.getD i 0 + state.getD i 0) % two32)

/-- Serialization of the 16 post-round words into the 64 keystream bytes
(little-endian per word), as done by the final `memcpy` in `Block`. -/
def wordsToBytes (ws : List Nat) : List Nat :=
  ws.flatMap (fun w => [w % 256, (w >>> 8) % 256, (w >>> 16) % 256, (w >>> 24) % 256])

/-- The 64 keystream bytes produced by `ChaCha20::Block` for a given state. -/
def BlockBytes (state : List Nat) : List Nat :=
  wordsToBytes (BlockWords state)

/-- The initial cipher state built by `ChaCha20::Encrypt`: the four source
constants (note the source's nonstandard third constant 0x79622d36), eight
key words, the block counter in word 12 with word 13 fixed to 0, and two
nonce words loaded from nonce bytes 0..7. -/
def chachaInitState (key nonce : List Nat) (counter : Nat) : List Nat :=
  [0x61707865, 0x3320646e, 0x79622d36, 0x6b206574,
   LoadLE32 key 0, LoadLE32 key 4, LoadLE32 key 8, LoadLE32 key 12,
   LoadLE32 key 16, LoadLE32 key 20, LoadLE32 key 24, LoadLE32 key 28,
   counter % two32, 0,
   LoadLE32 nonce 0, LoadLE32 nonce 4]

/-- Keystream byte at absolute position `p` of the stream: the loop in
`ChaCha20::Encrypt` processes 64-byte blocks with the counter starting at 0
and incremented once per block, so position `p` is XORed with byte `p % 64`
of the block generated at counter `p / 64`. -/
def keystreamByte (key nonce : List Nat) (p : Nat) : Nat :=
  (BlockBytes (chachaInitState key nonce (p / 64))).getD (p % 64) 0

/-- The XOR loop of `ChaCha20::Encrypt`, starting at stream position `p`. -/
def encryptFrom (key nonce : List Nat) : Nat → List Nat → List Nat
  | _, [] => []
  | p, b :: rest => Nat.xor b (keystreamByte key nonce p) :: encryptFrom key nonce (p + 1) rest

/-- `ChaCha20::Encrypt(input, output, length, key, nonce)`: XOR the input
with the keystream derived from (key, nonce), counter starting at 0. -/
def Encrypt (input key nonce : List Nat) : List Nat :=
  encryptFrom key nonce 0 input

/-- `ComputeChecksumFNV`: FNV-1a over the bytes, 32-bit arithmetic. -/
def ComputeChecksumFNV (data : List Nat) : Nat :=
  data.foldl (fun h b => (Nat.xor h b * 0x01000193) % two32) 0x811C9DC5

/-- The error conditions SafeVar reports by throwing `std::runtime_error`:
"Memory allocation failed", "Invalid memory state", "Memory validation
failed" and "Decryption verification failed". -/
inductive SVError where
  | allocationFailure
  | invalidState
  | validationFailed
  | verificationFailed
deriving DecidableEq

/-- The fields of `SafeVar<T>`.  A value of type `T` is represented by its
`sizeof(T)` bytes, so `buffer` and `key` are byte lists of length
`sizeof(T)`, and `nonce` a byte list of length 12.  `realMemory` is `some`
of the byte content of the owned OS allocation when one exists, `none` when
the pointer is null. -/
structure SVState where
  buffer : List Nat
  key : List Nat
  nonce : List Nat
  realMemory : Option (List Nat)
  fakeMemoryAddress : Nat
  lastChecksum : Nat
  isValid : Bool
deriving DecidableEq

/-- `GenerateNonce`: fill the 12 nonce bytes from the entropy source
(`std::random_device` results truncated to `uint8_t`). -/
def GenerateNonce (entropy : List Nat) : List Nat :=
  (List.range 12).map (fun i => entropy.getD i 0 % 256)

/-- `SafeVar::GenerateKey`: zero the `sizeof(T)`-byte key, then fill bytes
`i < min(sizeof(T), 32)` with random bytes from the entropy source. -/
def GenerateKey (n : Nat) (entropy : List Nat) : List Nat :=
  (List.range n).map (fun i => if i < 32 then entropy.getD i 0 % 256 else 0)

/-- `SafeVar::InitializeCryptoState`, reduced to the full key it produces:
a 32-byte buffer zero-initialized and then overwritten with the key bytes
(`std::copy` of the whole `sizeof(T)`-byte key member; for
`sizeof(T) > 32` that copy writes out of bounds — see the offset lists —
and the model keeps the 32 in-bounds bytes). -/
def fullKey (key : List Nat) : List Nat :=
  (List.range 32).map (fun i => key.getD i 0)

/-- `SafeVar::Obfuscate`: copy the value bytes into the zeroed temp buffer
and encrypt them under the 32-byte full key and the current nonce. -/
def Obfuscate (key nonce value : List Nat) : List Nat :=
  Encrypt value (fullKey key) nonce

/-- `SafeVar::Deobfuscate`: decrypt the buffer under the 32-byte full key
and the current nonce, returning the value bytes. -/
def Deobfuscate (key nonce buf : List Nat) : List Nat :=
  Encrypt buf (fullKey key) nonce

/-- `SafeVar::ValidateMemory`: false when no real allocation exists or the
object is not valid; otherwise compare the real allocation's byte content
with `buffer`. -/
def ValidateMemory (st : SVState) : Bool :=
  match st.realMemory with
  | none => false
  | some m => st.isValid && decide (m = st.buffer)

/-- `SafeVar::Clear`: zero and release the real allocation, zero `buffer`,
`key`, `nonce` and the fake token.  The source does not touch `isValid`
or `lastChecksum` here. -/
def Clear (st : SVState) : SVState :=
  { st with
    realMemory := none
    buffer := List.replicate st.buffer.length 0
    key := List.replicate st.key.length 0
    nonce := List.replicate st.nonce.length 0
    fakeMemoryAddress := 0 }

/-- `SafeVar::Set`: Clear, generate fresh key and nonce, encrypt the value
into `buffer`, then acquire the real allocation (the OS grant is the
`allocOk` oracle; on denial `AllocateRealMemory` throws and the fields
already written stand), mirror `buffer` into it, recompute the checksum,
take a fake token and mark valid.  The first component is the error the
operation surfaces, the second the state the object is left in. -/
def Set (st : SVState) (value keyEnt nonceEnt : List Nat) (fakeTok : Nat)
    (allocOk : Bool) : Option SVError × SVState :=
  let st1 := Clear st
  let k := GenerateKey value.length keyEnt
  let nc := GenerateNonce nonceEnt
  let buf := Obfuscate k nc value
  let st2 := { st1 with key := k, nonce := nc, buffer := buf }
  if allocOk then
    (none, { st2 with
              realMemory := some buf
              lastChecksum := ComputeChecksumFNV buf
              fakeMemoryAddress := fakeTok
              isValid := true })
  else
    (some SVError.allocationFailure, st2)

/-- `SafeVar::Get`: invalid-state error without a real allocation, then the
`ValidateMemory` check, then either the raw ciphertext bytes or the
decrypt / re-encrypt / compare path. -/
def Get (st : SVState) (encrypted : Bool) : Except SVError (List Nat) :=
  if st.realMemory = none then
    Except.error SVError.invalidState
  else if ValidateMemory st = false then
    Except.error SVError.validationFailed
  else if encrypted then
    Except.ok st.buffer
  else
    let decrypted := Deobfuscate st.key st.nonce st.buffer
    let verify := Obfuscate st.key st.nonce decrypted
    if verify = st.buffer then Except.ok decrypted
    else Except.error SVError.verificationFailed

/-- `SafeVar::ReKey`: read the current value, then `Set` it again; a `Get`
failure propagates and leaves the state unchanged. -/
def ReKey (st : SVState) (keyEnt nonceEnt : List Nat) (fakeTok : Nat)
    (allocOk : Bool) : Option SVError × SVState :=
  match Get st false with
  | Except.error e => (some e, st)
  | Except.ok v => Set st v keyEnt nonceEnt fakeTok allocOk

/-- `SafeVar::Serialize`: the 12 nonce bytes, then the `sizeof(T)` key
bytes, then `buffer` encrypted a second time — with the raw `sizeof(T)`-
byte key member passed straight to `ChaCha20::Encrypt`. -/
def Serialize (st : SVState) : List Nat :=
  st.nonce ++ st.key ++ Encrypt st.buffer st.key st.nonce

/-- `SafeVar::Deserialize`: reject any length other than
`sizeof(T) + 12 + sizeof(T)`; otherwise install the transported nonce and
key and decrypt the payload into `buffer`.  `realMemory`, `isValid`,
`lastChecksum` and the fake token are not touched. -/
def Deserialize (st : SVState) (data : List Nat) : Bool × SVState :=
  let n := st.buffer.length
  if data.length = n + 12 + n then
    let nc := data.take 12
    let k := (data.drop 12).take n
    let enc := (data.drop (12 + n)).take n
    (true, { st with nonce := nc, key := k, buffer := Encrypt enc k nc })
  else
    (false, st)

/-- States reachable by the public operation surface: construction (member
initializers give a null real pointer, zero tokens and `isValid == false`,
with the byte arrays uninitialized, then the constructor runs `Set`),
followed by any sequence of `Set`, `ReKey`, `Deserialize` and `Clear`
(`Get` and `Serialize` are const).  Entropy, fake tokens and OS allocation
outcomes are arbitrary. -/
inductive Reachable : SVState → Prop where
  | construct (buf k nc v kE nE : List Nat) (fT : Nat) (aOk : Bool) :
      Reachable (Set ⟨buf, k, nc, none, 0, 0, false⟩ v kE nE fT aOk).2
  | set (st : SVState) (v kE nE : List Nat) (fT : Nat) (aOk : Bool) :
      Reachable st → Reachable (Set st v kE nE fT aOk).2
  | rekey (st : SVState) (kE nE : List Nat) (fT : Nat) (aOk : Bool) :
      Reachable st → Reachable (ReKey st kE nE fT aOk).2
  | deserialize (st : SVState) (data : List Nat) :
      Reachable st → Reachable (Deserialize st data).2
  | clear (st : SVState) :
      Reachable st → Reachable (Clear st)

/-- Same reachable-state relation with the `Deserialize` transition
removed (used for the amended mirroring invariant, which `Deserialize`
breaks). -/
inductive ReachableND : SVState → Prop where
  | construct (buf k nc v kE nE : List Nat) (fT : Nat) (aOk : Bool) :
      ReachableND (Set ⟨buf, k, nc, none, 0, 0, false⟩ v kE nE fT aOk).2
  | set (st : SVState) (v kE nE : List Nat) (fT : Nat) (aOk : Bool) :
      ReachableND st → ReachableND (Set st v kE nE fT aOk).2
  | rekey (st : SVState) (kE nE : List Nat) (fT : Nat) (aOk : Bool) :
      ReachableND st → ReachableND (ReKey st kE nE fT aOk).2
  | clear (st : SVState) :
      ReachableND st → ReachableND (Clear st)

/-- Byte offsets that `ChaCha20::Encrypt` reads from its `key` argument:
`LoadLE32(key + i * 4)` for the eight key words reads bytes `4i .. 4i+3`,
i.e. offsets 0..31, for every call, regardless of the length of the buffer
the caller passes. -/
def encryptKeyReadOffsets : List Nat :=
  (List.range 8).flatMap (fun i => [4 * i, 4 * i + 1, 4 * i + 2, 4 * i + 3])

/-- Byte offsets that `InitializeCryptoState` writes inside the 32-byte
`cryptoState.fullKey` buffer: `std::copy` of the whole `sizeof(T)`-byte
key member writes offsets `0 .. sizeof(T) - 1`. -/
def initFullKeyWriteOffsets (n : Nat) : List Nat :=
  List.range n

/-- A freshly constructed (pre-`Set`) one-byte container: null real
pointer, zero tokens, `isValid == false`. -/
def base1 : SVState :=
  ⟨[0], [0], List.replicate 12 0, none, 0, 0, false⟩

/-- A one-byte container after `Set(1)` with all-zero entropy and fake
token 5.  Its ciphertext is the single byte `1 XOR 2 = 3` (the first
keystream byte under the all-zero key and nonce is 2). -/
def stSet1 : SVState :=
  (Set base1 [1] [] [] 5 true).2

/-- `stSet1` after `Deserialize` of an all-zero 14-byte wire buffer: the
in-object ciphertext becomes the zero byte decrypted, `[2]`, while the
real allocation still mirrors the old ciphertext `[3]`. -/
def stDeser : SVState :=
  (Deserialize stSet1 (List.replicate 14 0)).2

/-- `Set(3)` on `stSet1` when the OS denies the real-memory request. -/
def setFailOutcome : Option SVError × SVState :=
  Set stSet1 [3] [] [] 6 false

/-- First half of a 32-bit FNV-1a collision: both `fnvA` and `fnvB` hash
to 0xA2918030. -/
def fnvA : List Nat := [197, 231, 50, 165]

/-- Second half of the FNV-1a collision pair. -/
def fnvB : List Nat := [243, 63, 57, 138]

/-- A freshly constructed four-byte container. -/
def base4 : SVState :=
  ⟨List.replicate 4 0, List.replicate 4 0, List.replicate 12 0, none, 0, 0, false⟩

/-- The four-byte value whose ciphertext under the all-zero key and nonce
is exactly `fnvA`. -/
def vColl : List Nat :=
  Deobfuscate (List.replicate 4 0) (List.replicate 12 0) fnvA

/-- A genuine post-`Set` state (value `vColl`, all-zero entropy) whose
mirrored real allocation an external writer then overwrote with `fnvB` —
bytes that differ from the ciphertext `fnvA` but carry the same FNV-1a
checksum. -/
def stTampered : SVState :=
  { (Set base4 vColl [] [] 0 true).2 with realMemory := some fnvB }

lemma xor_xor_cancel (b k : Nat) : Nat.xor (Nat.xor b k) k = b := by
  show b ^^^ k ^^^ k = b
  rw [Nat.xor_assoc, Nat.xor_self, Nat.xor_zero]

lemma encryptFrom_encryptFrom (key nonce : List Nat) (l : List Nat) :
    ∀ p, encryptFrom key nonce p (encryptFrom key nonce p l) = l := by
  induction l with
  | nil => intro p; rfl
  | cons b rest ih =>
      intro p
      simp only [encryptFrom]
      rw [xor_xor_cancel, ih]

lemma length_encryptFrom (key nonce : List Nat) :
    ∀ p l, (encryptFrom key nonce p l).length = l.length := by
  intro p l
  induction l generalizing p with
  | nil => rfl
  | cons b rest ih => simp only [encryptFrom, List.length_cons, ih]

lemma length_Encrypt (input key nonce : List Nat) :
    (Encrypt input key nonce).length = input.length :=
  length_encryptFrom key nonce 0 input

lemma Encrypt_Encrypt (input key nonce : List Nat) :
    Encrypt (Encrypt input key nonce) key nonce = input :=
  encryptFrom_encryptFrom key nonce input 0

lemma Deobfuscate_Obfuscate (key nonce v : List Nat) :
    Deobfuscate key nonce (Obfuscate key nonce v) = v :=
  Encrypt_Encrypt v (fullKey key) nonce

lemma Obfuscate_Deobfuscate (key nonce buf : List Nat) :
    Obfuscate key nonce (Deobfuscate key nonce buf) = buf :=
  Encrypt_Encrypt buf (fullKey key) nonce

/-- Core success path of `Get`: when the object is valid, the real
allocation mirrors the ciphertext, and the ciphertext encrypts `v` under
the current key and nonce, `Get(rawMode=false)` returns `v`. -/
lemma Get_of_mirrored (st : SVState) (v : List Nat)
    (hbuf : st.buffer = Obfuscate st.key st.nonce v)
    (hmem : st.realMemory = some st.buffer)
    (hval : st.isValid = true) :
    Get st false = Except.ok v := by
  have hvm : ValidateMemory st = true := by
    simp [ValidateMemory, hmem, hval]
  have hdeob : Deobfuscate st.key st.nonce st.buffer = v := by
    rw [hbuf, Deobfuscate_Obfuscate]
  simp [Get, hmem, hvm, hdeob, ← hbuf]

/-- C1: for every supported value (byte vector) `v`, `Set(v)` followed by
`Get(rawMode=false)` returns exactly `v`, with no error raised, whatever
the prior state, the generated key/nonce entropy and the fake token. -/
theorem c1_set_get_roundtrip (st : SVState) (v kE nE : List Nat) (fT : Nat) :
    Get (Set st v kE nE fT true).2 false = Except.ok v :=
  Get_of_mirrored _ v rfl rfl rfl

/-- C2: the cipher transform is an involution: for any 32-byte key,
12-byte nonce and buffer of any length, encrypting twice with the same
key and nonce returns the original buffer. -/
theorem c2_cipher_involution (key nonce input : List Nat)
    (hkey : key.length = 32) (hnonce : nonce.length = 12) :
    Encrypt (Encrypt input key nonce) key nonce = input :=
  Encrypt_Encrypt input key nonce

/-- Witness for C2 at a concrete key, nonce and buffer. -/
theorem c2_cipher_involution_witness :
    Encrypt (Encrypt [1, 2, 3] (List.replicate 32 0) (List.replicate 12 0))
      (List.replicate 32 0) (List.replicate 12 0) = [1, 2, 3] :=
  c2_cipher_involution (List.replicate 32 0) (List.replicate 12 0) [1, 2, 3] rfl rfl

/-- C9 (code bug): `ChaCha20::Encrypt` unconditionally reads key byte
offsets up to 31, out of range for the `sizeof(T)`-byte key buffer that
`Serialize`/`Deserialize` pass when `sizeof(T) = 4`; and
`InitializeCryptoState` writes offset 32-and-above of the 32-byte
`fullKey` buffer when `sizeof(T) = 36`. -/
theorem c9_oob_key_access :
    (4 ∈ encryptKeyReadOffsets ∧ ¬ (4 < 4)) ∧
    (31 ∈ encryptKeyReadOffsets ∧ ¬ (31 < 4)) ∧
    (32 ∈ initFullKeyWriteOffsets 36 ∧ ¬ (32 < 32)) := by
  decide

/-- C3: `Get` raises errors exactly as specified, for every state in which
a present real allocation implies validity (true of every state the public
operations can produce, tampered real-memory content included): an
invalid-memory-state error without a real allocation; otherwise a
tamper/validation error when the real allocation's bytes differ from the
ciphertext; otherwise the raw ciphertext when `rawMode` is set; otherwise
the decrypted value, guarded by the re-encrypt comparison whose mismatch
case is the decryption-verification error. -/
theorem c3_get_error_cases (st : SVState)
    (hmv : st.realMemory ≠ none → st.isValid = true) :
    (st.realMemory = none → ∀ raw, Get st raw = Except.error SVError.invalidState) ∧
    (∀ m, st.realMemory = some m → m ≠ st.buffer →
      ∀ raw, Get st raw = Except.error SVError.validationFailed) ∧
    (st.realMemory = some st.buffer → Get st true = Except.ok st.buffer) ∧
    (st.realMemory = some st.buffer →
      Obfuscate st.key st.nonce (Deobfuscate st.key st.nonce st.buffer) = st.buffer →
      Get st false = Except.ok (Deobfuscate st.key st.nonce st.buffer)) ∧
    (st.realMemory = some st.buffer →
      Obfuscate st.key st.nonce (Deobfuscate st.key st.nonce st.buffer) ≠ st.buffer →
      Get st false = Except.error SVError.verificationFailed) := by
  refine ⟨?_, ?_, ?_, ?_, ?_⟩
  · intro hm raw
    simp [Get, hm]
  · intro m hm hne raw
    simp [Get, ValidateMemory, hm, hne]
  · intro hm
    have hv := hmv (by simp [hm])
    simp [Get, ValidateMemory, hm, hv]
  · intro hm hver
    have hv := hmv (by simp [hm])
    simp [Get, ValidateMemory, hm, hv, hver]
  · intro hm hver
    have hv := hmv (by simp [hm])
    simp [Get, ValidateMemory, hm, hv, hver]

/-- Witness for C3: the concrete post-`Set` container `stSet1` satisfies
the hypothesis, and the raw-mode clause yields its ciphertext bytes. -/
theorem c3_get_error_cases_witness :
    Get stSet1 true = Except.ok stSet1.buffer :=
  (c3_get_error_cases stSet1 (fun _ => rfl)).2.2.1 rfl

/-- C5 counterexample: on the valid one-byte container `stSet1`, a `Set`
during which the OS denies the real-memory request does surface
AllocationFailure, but the resulting state is not `Cleared`: `isValid` is
still `true` and the ciphertext buffer holds the fresh (nonzero)
encryption of the new value. -/
theorem c5_alloc_failure_counterexample :
    setFailOutcome.1 = some SVError.allocationFailure ∧
    setFailOutcome.2.isValid = true ∧
    setFailOutcome.2.buffer ≠ List.replicate 1 0 := by
  refine ⟨rfl, rfl, by decide⟩

/-- C5 amended: when the OS denies the allocation during `Set(v)`, the
operation surfaces AllocationFailure and leaves a state with no real
allocation and a zero fake token, but whose key, nonce and ciphertext
buffers hold the freshly generated values for `v` (not zeroes), and whose
`isValid` flag and checksum keep their prior values — a half-initialized
state rather than the `Cleared` one. -/
theorem c5_alloc_failure_amended (st : SVState) (v kE nE : List Nat) (fT : Nat) :
    (Set st v kE nE fT false).1 = some SVError.allocationFailure ∧
    (Set st v kE nE fT false).2.realMemory = none ∧
    (Set st v kE nE fT false).2.fakeMemoryAddress = 0 ∧
    (Set st v kE nE fT false).2.key = GenerateKey v.length kE ∧
    (Set st v kE nE fT false).2.nonce = GenerateNonce nE ∧
    (Set st v kE nE fT false).2.buffer =
      Obfuscate (GenerateKey v.length kE) (GenerateNonce nE) v ∧
    (Set st v kE nE fT false).2.isValid = st.isValid ∧
    (Set st v kE nE fT false).2.lastChecksum = st.lastChecksum :=
  ⟨rfl, rfl, rfl, rfl, rfl, rfl, rfl, rfl⟩

/-- C7 counterexample: `stTampered` is a genuine post-`Set` state whose
mirrored allocation was externally overwritten with `fnvB`, bytes that
differ from the ciphertext `fnvA` yet carry the very same FNV-1a digest;
`Get` nevertheless reports the tamper — so the divergence check cannot be
the checksum comparison the claim describes. -/
theorem c7_checksum_counterexample :
    stTampered.buffer = fnvA ∧
    stTampered.realMemory = some fnvB ∧
    fnvB ≠ fnvA ∧
    stTampered.lastChecksum = ComputeChecksumFNV fnvA ∧
    ComputeChecksumFNV fnvB = ComputeChecksumFNV fnvA ∧
    Get stTampered false = Except.error SVError.validationFailed := by
  refine ⟨by decide, rfl, by decide, by decide, by decide, rfl⟩

/-- C7 amended: after every successful `Set` the checksum field equals the
FNV-1a digest of the ciphertext, but it is not what detects divergence on
access: `Get`'s outcome (and in particular the `ValidateMemory` byte
comparison against the real allocation) is independent of the stored
checksum. -/
theorem c7_checksum_amended (st : SVState) (v kE nE : List Nat) (fT : Nat)
    (c : Nat) (raw : Bool) :
    (Set st v kE nE fT true).2.lastChecksum =
      ComputeChecksumFNV (Set st v kE nE fT true).2.buffer ∧
    Get { st with lastChecksum := c } raw = Get st raw :=
  ⟨rfl, rfl⟩

/-- `Deserialize` of the exact `Serialize` output reconstructs the very
same state: the nonce and key slices come back unchanged, and decrypting
the doubly-encrypted payload once restores the single-encrypted
ciphertext. -/
lemma deserialize_serialize (st : SVState)
    (hn : st.nonce.length = 12) (hk : st.key.length = st.buffer.length) :
    Deserialize st (Serialize st) = (true, st) := by
  have hlenc : (Encrypt st.buffer st.key st.nonce).length = st.buffer.length :=
    length_Encrypt _ _ _
  have hlen : (st.nonce ++ st.key ++ Encrypt st.buffer st.key st.nonce).length
      = st.buffer.length + 12 + st.buffer.length := by
    simp only [List.length_append, hn, hk, hlenc]
    omega
  have h1 : (st.nonce ++ st.key ++ Encrypt st.buffer st.key st.nonce).take 12
      = st.nonce := by
    rw [List.append_assoc, ← hn, List.take_left]
  have h2 : (st.nonce ++ st.key ++ Encrypt st.buffer st.key st.nonce).drop 12
      = st.key ++ Encrypt st.buffer st.key st.nonce := by
    rw [List.append_assoc, ← hn, List.drop_left]
  have h3 : (st.nonce ++ st.key ++ Encrypt st.buffer st.key st.nonce).drop
        (12 + st.buffer.length)
      = Encrypt st.buffer st.key st.nonce := by
    rw [← List.drop_drop, h2, ← hk, List.drop_left]
  have h2b : ((st.nonce ++ st.key ++ Encrypt st.buffer st.key st.nonce).drop 12).take
        st.buffer.length = st.key := by
    rw [h2, ← hk, List.take_left]
  have h3b : ((st.nonce ++ st.key ++ Encrypt st.buffer st.key st.nonce).drop
        (12 + st.buffer.length)).take st.buffer.length = Encrypt st.buffer st.key st.nonce := by
    rw [h3, ← hlenc, List.take_length]
  simp only [Deserialize, Serialize]
  rw [if_pos hlen, h1, h2b, h3b, Encrypt_Encrypt]

/-- C6: on a valid container holding `v` (produced by a successful `Set`),
`Deserialize` of the exact `Serialize` output succeeds, and a subsequent
`Get` still returns `v` (the real allocation of the container is still in
place and still mirrors the — unchanged — ciphertext). -/
theorem c6_serialize_deserialize_get (st : SVState) (v kE nE : List Nat) (fT : Nat) :
    (Deserialize (Set st v kE nE fT true).2 (Serialize (Set st v kE nE fT true).2)).1 = true ∧
    Get (Deserialize (Set st v kE nE fT true).2 (Serialize (Set st v kE nE fT true).2)).2 false
      = Except.ok v := by
  have hn : (Set st v kE nE fT true).2.nonce.length = 12 := by
    show (GenerateNonce nE).length = 12
    simp [GenerateNonce]
  have hk : (Set st v kE nE fT true).2.key.length = (Set st v kE nE fT true).2.buffer.length := by
    show (GenerateKey v.length kE).length
        = (Obfuscate (GenerateKey v.length kE) (GenerateNonce nE) v).length
    simp [GenerateKey, Obfuscate, length_Encrypt]
  rw [deserialize_serialize _ hn hk]
  exact ⟨rfl, Get_of_mirrored _ v rfl rfl rfl⟩

/-- On any `Set` outcome, a present real allocation mirrors the ciphertext. -/
lemma set_mirrors (st : SVState) (v kE nE : List Nat) (fT : Nat) (aOk : Bool)
    (m : List Nat) (hm : (Set st v kE nE fT aOk).2.realMemory = some m) :
    m = (Set st v kE nE fT aOk).2.buffer := by
  cases aOk with
  | false => simp [Set, Clear] at hm
  | true =>
      simp only [Set, if_pos] at hm ⊢
      injection hm with h
      exact h.symm

/-- C4 (amended): for every state reachable by the public operations other
than `Deserialize`, whenever `isValid` is true the byte content of the
real allocation (when one exists) equals the in-object ciphertext. -/
theorem c4_mirror_invariant_amended (st : SVState) (h : ReachableND st)
    (hv : st.isValid = true) (m : List Nat) (hm : st.realMemory = some m) :
    m = st.buffer := by
  induction h with
  | construct buf k nc v kE nE fT aOk =>
      exact set_mirrors _ v kE nE fT aOk m hm
  | set st0 v kE nE fT aOk h0 ih =>
      exact set_mirrors st0 v kE nE fT aOk m hm
  | rekey st0 kE nE fT aOk h0 ih =>
      revert hv hm
      simp only [ReKey]
      cases hG : Get st0 false with
      | error e => exact fun hv hm => ih hv hm
      | ok v => exact fun hv hm => set_mirrors st0 v kE nE fT aOk m hm
  | clear st0 h0 ih =>
      simp [Clear] at hm

/-- Witness for the amended C4 at the concrete post-`Set` state `stSet1`:
its real allocation holds exactly the ciphertext byte `[3]`. -/
theorem c4_mirror_invariant_amended_witness : ([3] : List Nat) = stSet1.buffer :=
  c4_mirror_invariant_amended stSet1
    (ReachableND.construct [0] [0] (List.replicate 12 0) [1] [] [] 5 true)
    rfl [3] (by decide)

/-- C4 counterexample: the reachable state `stDeser` — a valid one-byte
container after `Set(1)` followed by `Deserialize` of an all-zero wire
buffer — has `isValid == true` while its real allocation holds `[3]` and
its in-object ciphertext is `[2]`. -/
theorem c4_mirror_invariant_counterexample :
    Reachable stDeser ∧
    stDeser.isValid = true ∧
    stDeser.realMemory ≠ none ∧
    stDeser.realMemory ≠ some stDeser.buffer := by
  refine ⟨?_, rfl, by decide, by decide⟩
  exact Reachable.deserialize stSet1 (List.replicate 14 0)
    (Reachable.construct [0] [0] (List.replicate 12 0) [1] [] [] 5 true)

lemma fullKey_congr (k1 k2 : List Nat) (h : ∀ i, i < 32 → k1.getD i 0 = k2.getD i 0) :
    fullKey k1 = fullKey k2 := by
  unfold fullKey
  apply List.map_congr_left
  intro i hi
  exact h i (List.mem_range.mp hi)

lemma fullKey_pad (k : List Nat) (h : k.length ≤ 32) :
    fullKey k = k ++ List.replicate (32 - k.length) 0 := by
  apply List.ext_getElem
  · simp only [fullKey, List.length_map, List.length_range, List.length_append,
      List.length_replicate]
    omega
  · intro i h1 h2
    simp only [fullKey, List.getElem_map, List.getElem_range]
    by_cases hik : i < k.length
    · rw [List.getD_eq_getElem k 0 hik, List.getElem_append_left hik]
    · have hge : k.length ≤ i := Nat.le_of_not_lt hik
      rw [List.getD_eq_default k 0 hge, List.getElem_append_right hge]
      simp

/-- C8: the container's encryption depends only on the first
`min(sizeof(T), 32)` bytes of the key material: any two key buffers that
agree on their first 32 bytes produce the same ciphertext for the same
value and nonce, and a key buffer of at most 32 bytes enters the cipher
zero-padded to exactly 32 bytes. -/
theorem c8_key_first32 (v nonce k1 k2 : List Nat)
    (h : ∀ i, i < 32 → k1.getD i 0 = k2.getD i 0) :
    Obfuscate k1 nonce v = Obfuscate k2 nonce v ∧
    (k1.length ≤ 32 → fullKey k1 = k1 ++ List.replicate (32 - k1.length) 0) := by
  constructor
  · unfold Obfuscate
    rw [fullKey_congr k1 k2 h]
  · exact fun hl => fullKey_pad k1 hl

/-- Witness for C8: a 36-byte key and a different 36-byte key agreeing on
the first 32 bytes (the last four bytes are dead entropy) encrypt a
four-byte value identically. -/
theorem c8_key_first32_witness :
    Obfuscate (List.replicate 36 5) (List.replicate 12 0) [1, 2, 3, 4]
      = Obfuscate (List.replicate 32 5 ++ [8, 8, 8, 8]) (List.replicate 12 0) [1, 2, 3, 4] :=
  (c8_key_first32 [1, 2, 3, 4] (List.replicate 12 0)
    (List.replicate 36 5) (List.replicate 32 5 ++ [8, 8, 8, 8]) (by decide)).1

lemma LoadLE32_congr (l1 l2 : List Nat) (o : Nat)
    (e0 : l1.getD o 0 = l2.getD o 0) (e1 : l1.getD (o + 1) 0 = l2.getD (o + 1) 0)
    (e2 : l1.getD (o + 2) 0 = l2.getD (o + 2) 0) (e3 : l1.getD (o + 3) 0 = l2.getD (o + 3) 0) :
    LoadLE32 l1 o = LoadLE32 l2 o := by
  unfold LoadLE32
  rw [e0, e1, e2, e3]

lemma chachaInit_nonce_congr (key n1 n2 : List Nat) (c : Nat)
    (h : ∀ i, i < 8 → n1.getD i 0 = n2.getD i 0) :
    chachaInitState key n1 c = chachaInitState key n2 c := by
  unfold chachaInitState
  rw [LoadLE32_congr n1 n2 0 (h 0 (by omega)) (h 1 (by omega)) (h 2 (by omega)) (h 3 (by omega)),
    LoadLE32_congr n1 n2 4 (h 4 (by omega)) (h 5 (by omega)) (h 6 (by omega)) (h 7 (by omega))]

lemma encryptFrom_congr (k1 n1 k2 n2 : List Nat)
    (h : ∀ p, keystreamByte k1 n1 p = keystreamByte k2 n2 p) :
    ∀ p l, encryptFrom k1 n1 p l = encryptFrom k2 n2 p l := by
  intro p l
  induction l generalizing p with
  | nil => rfl
  | cons b rest ih => simp only [encryptFrom, h, ih]

/-- C10: the cipher never reads the last 4 bytes of the 12-byte nonce —
only two nonce words are loaded into the state, and state word 13 is fixed
to zero — so any two 12-byte nonces agreeing on bytes 0..7 produce
identical `Encrypt` output for every key and input. -/
theorem c10_nonce_tail_inert (key input n1 n2 : List Nat)
    (h : ∀ i, i < 8 → n1.getD i 0 = n2.getD i 0)
    (hl1 : n1.length = 12) (hl2 : n2.length = 12) :
    Encrypt input key n1 = Encrypt input key n2 := by
  apply encryptFrom_congr
  intro p
  unfold keystreamByte
  rw [chachaInit_nonce_congr key n1 n2 (p / 64) h]

/-- Witness for C10: two 12-byte nonces differing exactly in their last
four bytes encrypt the one-byte input `[7]` identically. -/
theorem c10_nonce_tail_inert_witness :
    Encrypt [7] (List.replicate 32 0) (List.replicate 12 0)
      = Encrypt [7] (List.replicate 32 0) (List.replicate 8 0 ++ [9, 9, 9, 9]) :=
  c10_nonce_tail_inert (List.replicate 32 0) [7]
    (List.replicate 12 0) (List.replicate 8 0 ++ [9, 9, 9, 9]) (by decide) rfl rfl

end SafeVarModel

